import Mathlib

/-!
# Passwordless authentication: refresh-credential lifecycle

A shallow embedding of `auth/pwdless/api.go` and `auth/pwdless/chores.go`
(handlers `loginWithoutTokenApp`, `refresh`, `logout`, the purge tick) together with
the collaborators they call through the `AuthStorer` interface.

* The handlers are written against an arbitrary implementation of the interface,
  as in the source, and thread the store state explicitly.
* Every collaborator call is appended to a call log together with the error it
  returned, so that "which calls were performed" is part of the outcome.
* `time.Now()` and `uuid.NewV4()` are inputs of a handler run (`Env`).
* The persistent backend behind the interface is not part of the handler package;
  it is modelled over the `tokens` / `accounts` tables of the migrations.
-/

set_option linter.dupNamespace false

namespace jwt

/-- Model of `time.Time`: an instant on an integer time line. -/
abbrev Time := Int

/-- Model of `time.Duration`. -/
abbrev Duration := Int

/-- Go `error` values, identified by their message. -/
abbrev Error := String

/-- Modelled from the spec: the refresh claims carried by a refresh credential
("credential record id/token + expiry"); the type declaration lives in the jwt
package, which is not among the sources. -/
structure RefreshClaims where
  ID : Int
  Token : String
  Expiry : Time
deriving DecidableEq, Repr

/-- Modelled from the spec: the access claims ("account id + roles"); the type
declaration lives in the jwt package, which is not among the sources. -/
structure AppClaims where
  ID : Int
  Roles : List String
deriving DecidableEq, Repr

/-- Modelled from the spec: the Credential Record `jwt.Token` (internal id, token
string, expiry, last-update timestamp, owning account id, device-class flag, device
identifier). The fields are the ones the handlers assign and the columns of the
`tokens` table; `ID = 0` is the Go zero value of a record that was never stored. -/
structure Token where
  ID : Int
  UpdatedAt : Time
  AccountID : Int
  Token : String
  Expiry : Time
  Mobile : Bool
  Identifier : String
deriving DecidableEq, Repr

/-- Modelled from the spec: `token.Claims()`, the refresh claims of a record. -/
def Token.Claims (t : jwt.Token) : RefreshClaims :=
  { ID := t.ID, Token := t.Token, Expiry := t.Expiry }

/-- Modelled from the spec: the message of `jwt.ErrTokenExpired`. -/
def ErrTokenExpired : Error := "token expired"

/-- The part of `jwt.TokenAuth` the handlers use. `GenTokenPair` belongs to the jwt
package and is taken as a parameter: it returns the signed access and refresh
credentials, or an error. -/
structure TokenAuth where
  JwtRefreshExpiry : Duration
  GenTokenPair : AppClaims → RefreshClaims → Except Error (String × String)

end jwt

namespace pwdless

open jwt

/-- Modelled from the spec: the Account record (id, login, credential material,
contact address, display name, active flag, role set, last-login timestamp); the
columns are those of the bootstrap `INSERT INTO accounts`. -/
structure Account where
  ID : Int
  Login : String
  Pwd : String
  Email : String
  Name : String
  Active : Bool
  Roles : List String
  LastLogin : Time
deriving DecidableEq, Repr

/-- Modelled from the spec: `CanLogin()` holds iff the account is active. -/
def Account.CanLogin (a : Account) : Bool := a.Active

/-- Modelled from the spec: `acc.Claims()`, the access claims of an account. -/
def Account.Claims (a : Account) : AppClaims :=
  { ID := a.ID, Roles := a.Roles }

/-- Modelled from the spec: message of `ErrUnknownLogin`. -/
def ErrUnknownLogin : Error := "unknown login"

/-- Modelled from the spec: message of `ErrLoginDisabled`. -/
def ErrLoginDisabled : Error := "login disabled"

/-- The body of `tokenResponse`. -/
structure tokenResponse where
  Access : String
  Refresh : String
deriving DecidableEq, Repr

/-- Modelled from the spec: what a handler renders (the renderers live in the package's
error file, which is not among the sources): `ErrUnauthorized(err)` (401 with the
error's message), the fixed value `ErrInternalServerError` (500), a `tokenResponse`
(200), or the rendering of `http.NoBody` (200, a body without content). -/
inductive Response where
  | unauthorized (msg : Error)
  | internalServerError
  | tokens (body : tokenResponse)
  | noBody
deriving DecidableEq, Repr

/-- Modelled from the spec: renderer `ErrUnauthorized(err)`, Unauthorized with the
message of `err`. -/
def ErrUnauthorized (err : Error) : Response := Response.unauthorized err

/-- Modelled from the spec: renderer `ErrInternalServerError`, the generic internal
failure: one fixed value, it carries no error detail. -/
def ErrInternalServerError : Response := Response.internalServerError

/-- The collaborator calls a handler can make: the methods of `AuthStorer` and the
minting of the credential pair. -/
inductive Call where
  | GetAccount (id : Int)
  | GetAccountByLogin (login pwd : String)
  | UpdateAccount (a : Account)
  | GetToken (token : String)
  | CreateOrUpdateToken (t : Token)
  | DeleteToken (t : Token)
  | PurgeExpiredToken
  | GenTokenPair (a : AppClaims) (r : RefreshClaims)
deriving DecidableEq, Repr

/-- The calls whose failure the handlers answer with `ErrInternalServerError`. -/
def Call.commits : Call → Bool
  | Call.CreateOrUpdateToken _ => true
  | Call.GenTokenPair _ _ => true
  | Call.UpdateAccount _ => true
  | _ => false

/-- One entry of the call log: the call and the error it returned, if any. -/
structure Event where
  call : Call
  err : Option Error
deriving DecidableEq, Repr

/-- Interface `AuthStorer`: database operations on accounts and tokens. Each method
takes the store state and returns its result with the state after the call.
`CreateOrUpdateToken` receives a pointer and may fill in the record (the assigned id),
so it returns the record as the caller sees it afterwards. -/
structure AuthStorer (σ : Type) where
  GetAccount : Int → σ → Except Error Account × σ
  GetAccountByLogin : String → String → σ → Except Error Account × σ
  UpdateAccount : Account → σ → Option Error × σ
  GetToken : String → σ → Except Error Token × σ
  CreateOrUpdateToken : Token → σ → Except Error Token × σ
  DeleteToken : Token → σ → Option Error × σ
  PurgeExpiredToken : σ → Option Error × σ

/-- Type `Resource`: passwordless account authentication against a database. -/
structure Resource (σ : Type) where
  TokenAuth : jwt.TokenAuth
  Store : AuthStorer σ

/-- The readings a handler run takes from its environment: `now k` is the value of the
k-th call of `time.Now()` in the run (counted from 0) and `uuid` the string of the one
`uuid.NewV4()` it generates. -/
structure Env where
  now : Nat → Time
  uuid : String

/-- What a handler run leaves behind: the rendered response, the store state and the
log of the collaborator calls, in order. -/
structure Outcome (σ : Type) where
  resp : Response
  store : σ
  calls : List Event

/-- Type `loginRequest`, the decoded body of `POST /login`. -/
structure loginRequest where
  Login : String
  Pwd : String
deriving DecidableEq, Repr

/-- The values `user_agent.New(r.UserAgent())` yields for a request: `ua.Mobile()`,
the name returned by `ua.Browser()` and `ua.OS()`. -/
structure UserAgent where
  Mobile : Bool
  Browser : String
  OS : String
deriving DecidableEq, Repr

/-- Go `unicode.IsSpace`: the white space characters `strings.TrimSpace` removes. -/
def isSpace (c : Char) : Bool :=
  let n := c.toNat
  (9 ≤ n && n ≤ 13) || n = 32 || n = 133 || n = 160 || n = 5760 ||
  (8192 ≤ n && n ≤ 8202) || n = 8232 || n = 8233 || n = 8239 || n = 8287 || n = 12288

/-- Go `strings.TrimSpace`: drop leading and trailing white space. -/
def TrimSpace (s : String) : String :=
  String.mk ((s.data.dropWhile isSpace).reverse.dropWhile isSpace).reverse

/-- One character of the class `[a-zA-Z0-9]`. -/
def isAlphanumericChar (c : Char) : Bool :=
  let n := c.toNat
  (48 ≤ n && n ≤ 57) || (65 ≤ n && n ≤ 90) || (97 ≤ n && n ≤ 122)

/-- Rule `validation.Required`: the value must not be empty. -/
def Required (s : String) : Option Error :=
  if s.data = [] then some "cannot be blank" else none

/-- Rule `is.Alphanumeric`: an empty value is skipped, any other value must match
the pattern of one or more characters of `[a-zA-Z0-9]`. -/
def Alphanumeric (s : String) : Option Error :=
  if s.data = [] then none
  else if s.data.all isAlphanumericChar then none
  else some "must contain English letters and digits only"

/-- Method `loginRequest.Bind`: trims the login in place and validates it. Returns the
body as it is after the call and the validation error, if any. -/
def loginRequest.Bind (body : loginRequest) : loginRequest × Option Error :=
  let body := { body with Login := TrimSpace body.Login }
  match Required body.Login with
  | some e => (body, some e)
  | none => (body, Alphanumeric body.Login)

/-- Handler `refresh`, run on the raw token string `rt` that
`jwt.RefreshTokenFromCtx` hands over. -/
def refresh {σ : Type} (rs : Resource σ) (env : Env) (rt : String) (s : σ) : Outcome σ :=
  match rs.Store.GetToken rt s with
  | (Except.error e, s1) =>
    ⟨ErrUnauthorized ErrTokenExpired, s1, [⟨Call.GetToken rt, some e⟩]⟩
  | (Except.ok token, s1) =>
    if token.Expiry < env.now 0 then
      match rs.Store.DeleteToken token s1 with
      | (de, s2) =>
        ⟨ErrUnauthorized ErrTokenExpired, s2,
          [⟨Call.GetToken rt, none⟩, ⟨Call.DeleteToken token, de⟩]⟩
    else
      match rs.Store.GetAccount token.AccountID s1 with
      | (Except.error e, s2) =>
        ⟨ErrUnauthorized ErrUnknownLogin, s2,
          [⟨Call.GetToken rt, none⟩, ⟨Call.GetAccount token.AccountID, some e⟩]⟩
      | (Except.ok acc, s2) =>
        if !acc.CanLogin then
          ⟨ErrUnauthorized ErrLoginDisabled, s2,
            [⟨Call.GetToken rt, none⟩, ⟨Call.GetAccount token.AccountID, none⟩]⟩
        else
          let rotated : Token :=
            { token with
              Token := env.uuid
              Expiry := env.now 1 + rs.TokenAuth.JwtRefreshExpiry
              UpdatedAt := env.now 2 }
          match rs.TokenAuth.GenTokenPair acc.Claims rotated.Claims with
          | Except.error e =>
            ⟨ErrInternalServerError, s2,
              [⟨Call.GetToken rt, none⟩, ⟨Call.GetAccount token.AccountID, none⟩,
               ⟨Call.GenTokenPair acc.Claims rotated.Claims, some e⟩]⟩
          | Except.ok (access, refreshed) =>
            match rs.Store.CreateOrUpdateToken rotated s2 with
            | (Except.error e, s3) =>
              ⟨ErrInternalServerError, s3,
                [⟨Call.GetToken rt, none⟩, ⟨Call.GetAccount token.AccountID, none⟩,
                 ⟨Call.GenTokenPair acc.Claims rotated.Claims, none⟩,
                 ⟨Call.CreateOrUpdateToken rotated, some e⟩]⟩
            | (Except.ok _, s3) =>
              let acc1 : Account := { acc with LastLogin := env.now 3 }
              match rs.Store.UpdateAccount acc1 s3 with
              | (some e, s4) =>
                ⟨ErrInternalServerError, s4,
                  [⟨Call.GetToken rt, none⟩, ⟨Call.GetAccount token.AccountID, none⟩,
                   ⟨Call.GenTokenPair acc.Claims rotated.Claims, none⟩,
                   ⟨Call.CreateOrUpdateToken rotated, none⟩,
                   ⟨Call.UpdateAccount acc1, some e⟩]⟩
              | (none, s4) =>
                ⟨Response.tokens ⟨access, refreshed⟩, s4,
                  [⟨Call.GetToken rt, none⟩, ⟨Call.GetAccount token.AccountID, none⟩,
                   ⟨Call.GenTokenPair acc.Claims rotated.Claims, none⟩,
                   ⟨Call.CreateOrUpdateToken rotated, none⟩,
                   ⟨Call.UpdateAccount acc1, none⟩]⟩

/-- Handler `logout`, run on the raw token string of the verified refresh credential.
The error of `DeleteToken` is discarded by the handler. -/
def logout {σ : Type} (rs : Resource σ) (rt : String) (s : σ) : Outcome σ :=
  match rs.Store.GetToken rt s with
  | (Except.error e, s1) =>
    ⟨ErrUnauthorized ErrTokenExpired, s1, [⟨Call.GetToken rt, some e⟩]⟩
  | (Except.ok token, s1) =>
    match rs.Store.DeleteToken token s1 with
    | (de, s2) =>
      ⟨Response.noBody, s2, [⟨Call.GetToken rt, none⟩, ⟨Call.DeleteToken token, de⟩]⟩

/-- Handler `loginWithoutTokenApp`, run on the decoded request body and the parsed
user agent. The result of `render.Bind` is discarded by the handler: only the trimmed
body is used afterwards. -/
def loginWithoutTokenApp {σ : Type} (rs : Resource σ) (env : Env) (req : loginRequest)
    (ua : UserAgent) (s : σ) : Outcome σ :=
  let body := (req.Bind).1
  match rs.Store.GetAccountByLogin body.Login body.Pwd s with
  | (Except.error e, s1) =>
    ⟨ErrUnauthorized ErrUnknownLogin, s1,
      [⟨Call.GetAccountByLogin body.Login body.Pwd, some e⟩]⟩
  | (Except.ok acc, s1) =>
    if !acc.CanLogin then
      ⟨ErrUnauthorized ErrLoginDisabled, s1,
        [⟨Call.GetAccountByLogin body.Login body.Pwd, none⟩]⟩
    else
      let token : Token :=
        { ID := 0
          Token := env.uuid
          Expiry := env.now 0 + rs.TokenAuth.JwtRefreshExpiry
          UpdatedAt := env.now 1
          AccountID := acc.ID
          Mobile := ua.Mobile
          Identifier := ua.Browser ++ " on " ++ ua.OS }
      match rs.Store.CreateOrUpdateToken token s1 with
      | (Except.error e, s2) =>
        ⟨ErrInternalServerError, s2,
          [⟨Call.GetAccountByLogin body.Login body.Pwd, none⟩,
           ⟨Call.CreateOrUpdateToken token, some e⟩]⟩
      | (Except.ok stored, s2) =>
        match rs.TokenAuth.GenTokenPair acc.Claims stored.Claims with
        | Except.error e =>
          ⟨ErrInternalServerError, s2,
            [⟨Call.GetAccountByLogin body.Login body.Pwd, none⟩,
             ⟨Call.CreateOrUpdateToken token, none⟩,
             ⟨Call.GenTokenPair acc.Claims stored.Claims, some e⟩]⟩
        | Except.ok (access, refreshed) =>
          let acc1 : Account := { acc with LastLogin := env.now 2 }
          match rs.Store.UpdateAccount acc1 s2 with
          | (some e, s3) =>
            ⟨ErrInternalServerError, s3,
              [⟨Call.GetAccountByLogin body.Login body.Pwd, none⟩,
               ⟨Call.CreateOrUpdateToken token, none⟩,
               ⟨Call.GenTokenPair acc.Claims stored.Claims, none⟩,
               ⟨Call.UpdateAccount acc1, some e⟩]⟩
          | (none, s3) =>
            ⟨Response.tokens ⟨access, refreshed⟩, s3,
              [⟨Call.GetAccountByLogin body.Login body.Pwd, none⟩,
               ⟨Call.CreateOrUpdateToken token, none⟩,
               ⟨Call.GenTokenPair acc.Claims stored.Claims, none⟩,
               ⟨Call.UpdateAccount acc1, none⟩]⟩

/-- One tick of `choresTicker`: call `PurgeExpiredToken`; an error is only logged. -/
def choresTick {σ : Type} (rs : Resource σ) (s : σ) : Outcome σ :=
  match rs.Store.PurgeExpiredToken s with
  | (pe, s1) => ⟨Response.noBody, s1, [⟨Call.PurgeExpiredToken, pe⟩]⟩

/-- The record `refresh` hands to `CreateOrUpdateToken` when it rotates `r`. -/
abbrev rotated (ta : TokenAuth) (env : Env) (r : Token) : Token :=
  { r with
    Token := env.uuid
    Expiry := env.now 1 + ta.JwtRefreshExpiry
    UpdatedAt := env.now 2 }

/-- The record `loginWithoutTokenApp` hands to `CreateOrUpdateToken` for `acc`. -/
abbrev issued (ta : TokenAuth) (env : Env) (ua : UserAgent) (acc : Account) : Token :=
  { ID := 0
    Token := env.uuid
    Expiry := env.now 0 + ta.JwtRefreshExpiry
    UpdatedAt := env.now 1
    AccountID := acc.ID
    Mobile := ua.Mobile
    Identifier := ua.Browser ++ " on " ++ ua.OS }

end pwdless

namespace database

open jwt pwdless

/-- Modelled from the spec: the state of the persistent backend behind `AuthStorer`
(`database.NewAuthStore`, not among the sources): the rows of the `accounts` and
`tokens` tables and the last value handed out by the serial `tokens.id`. The methods
below give the behaviour of calls made one after the other; how the backend isolates
calls made at the same time is not modelled, and nothing below depends on it. -/
structure Store where
  accounts : List Account
  tokens : List Token
  seq : Int
deriving DecidableEq, Repr

/-- Modelled from the spec: the storage failures of its error taxonomy, as a pattern
for one handler run: for each method of the backend the error it returns instead of
doing its work, if any. A failed call leaves the tables as they were. -/
structure Faults where
  GetAccount : Option Error
  GetAccountByLogin : Option Error
  UpdateAccount : Option Error
  GetToken : Option Error
  CreateOrUpdateToken : Option Error
  DeleteToken : Option Error
  PurgeExpiredToken : Option Error
deriving DecidableEq, Repr

/-- The pattern in which no call fails for a reason outside the tables. -/
def noFaults : Faults := ⟨none, none, none, none, none, none, none⟩

/-- The error of a lookup that finds no row. -/
def ErrNoRows : Error := "no rows in result set"

/-- The error of a write that would break `token text NOT NULL UNIQUE`. -/
def ErrUniqueViolation : Error := "duplicate key value violates unique constraint"

/-- Modelled from the spec: `GetAccount(id)`, lookup of an account by id. -/
def GetAccount (f : Faults) (id : Int) (s : Store) : Except Error Account × Store :=
  match f.GetAccount with
  | some e => (Except.error e, s)
  | none =>
    match s.accounts.find? (fun a => decide (a.ID = id)) with
    | some a => (Except.ok a, s)
    | none => (Except.error ErrNoRows, s)

/-- Modelled from the spec: `GetAccountByLogin(login, credential)`, lookup of an
account by login and credential. -/
def GetAccountByLogin (f : Faults) (login pwd : String) (s : Store) :
    Except Error Account × Store :=
  match f.GetAccountByLogin with
  | some e => (Except.error e, s)
  | none =>
    match s.accounts.find? (fun a => decide (a.Login = login ∧ a.Pwd = pwd)) with
    | some a => (Except.ok a, s)
    | none => (Except.error ErrNoRows, s)

/-- Modelled from the spec: `UpdateAccount(account)`, overwrite the row with the
account's id. -/
def UpdateAccount (f : Faults) (a : Account) (s : Store) : Option Error × Store :=
  match f.UpdateAccount with
  | some e => (some e, s)
  | none =>
    (none, { s with accounts := s.accounts.map (fun x => if x.ID = a.ID then a else x) })

/-- Modelled from the spec: `GetToken(tokenString)`, lookup of a Credential Record by
its token string; absence is an error. -/
def GetToken (f : Faults) (t : String) (s : Store) : Except Error Token × Store :=
  match f.GetToken with
  | some e => (Except.error e, s)
  | none =>
    match s.tokens.find? (fun r => decide (r.Token = t)) with
    | some r => (Except.ok r, s)
    | none => (Except.error ErrNoRows, s)

/-- Modelled from the spec: `CreateOrUpdateToken(record)`, create-or-update keyed on the
internal id. A record that was never stored (`ID = 0`) becomes a new row with the next
serial id, so that a new login creates an additional, independent record (the reading
of the spec's data model; it leaves open whether a store may instead overwrite the
record of the same account and device); any other record overwrites the row with its
id. Either write fails when another row already holds the token string
(`token text NOT NULL UNIQUE`). This is the behaviour of a call that runs alone: the
isolation of rotations running at the same time, which the spec requires of the store,
is outside this model. -/
def CreateOrUpdateToken (f : Faults) (t : Token) (s : Store) : Except Error Token × Store :=
  match f.CreateOrUpdateToken with
  | some e => (Except.error e, s)
  | none =>
    if t.ID = 0 then
      if s.tokens.any (fun r => decide (r.Token = t.Token)) then
        (Except.error ErrUniqueViolation, s)
      else
        let stored : Token := { t with ID := s.seq + 1 }
        (Except.ok stored, { s with tokens := s.tokens ++ [stored], seq := s.seq + 1 })
    else
      if s.tokens.any (fun r => decide (r.ID ≠ t.ID ∧ r.Token = t.Token)) then
        (Except.error ErrUniqueViolation, s)
      else
        (Except.ok t,
          { s with tokens := s.tokens.map (fun r => if r.ID = t.ID then t else r) })

/-- Modelled from the spec: `DeleteToken(record)`, delete the row with the record's
id (`PRIMARY KEY (id)`). -/
def DeleteToken (f : Faults) (t : Token) (s : Store) : Option Error × Store :=
  match f.DeleteToken with
  | some e => (some e, s)
  | none => (none, { s with tokens := s.tokens.filter (fun r => decide (r.ID ≠ t.ID)) })

/-- Modelled from the spec: `PurgeExpiredToken()`, remove the records whose expiry is
strictly before the backend's reading `clock` of the current time. -/
def PurgeExpiredToken (f : Faults) (clock : Time) (s : Store) : Option Error × Store :=
  match f.PurgeExpiredToken with
  | some e => (some e, s)
  | none => (none, { s with tokens := s.tokens.filter (fun r => !decide (r.Expiry < clock)) })

/-- Modelled from the spec: `database.NewAuthStore`, the backend as an `AuthStorer`,
under a failure pattern `f` and a clock reading `clock`. -/
def AuthStore (f : Faults) (clock : Time) : AuthStorer Store where
  GetAccount := GetAccount f
  GetAccountByLogin := GetAccountByLogin f
  UpdateAccount := UpdateAccount f
  GetToken := GetToken f
  CreateOrUpdateToken := CreateOrUpdateToken f
  DeleteToken := DeleteToken f
  PurgeExpiredToken := PurgeExpiredToken f clock

/-- The constraints of the `tokens` table: `PRIMARY KEY (id)` and `token UNIQUE` (no
two rows share an id or a token string), ids come from the serial (positive, at most
the last value handed out, which is never negative). -/
def WF (s : Store) : Prop :=
  s.tokens.Pairwise (fun x y => x.ID ≠ y.ID ∧ x.Token ≠ y.Token) ∧
  0 ≤ s.seq ∧ ∀ r ∈ s.tokens, 0 < r.ID ∧ r.ID ≤ s.seq

/-- A record with token string `t` is stored. -/
def HasToken (s : Store) (t : String) : Prop := ∃ r ∈ s.tokens, r.Token = t

end database

namespace pwdless

open jwt database

/-- One operation on the store: a run of a handler or a tick of the purge chore, each
under its own failure pattern, backend clock and (for login and refresh) environment. -/
inductive Op where
  | login (f : Faults) (clock : Time) (env : Env) (req : loginRequest) (ua : UserAgent)
  | refresh (f : Faults) (clock : Time) (env : Env) (rt : String)
  | logout (f : Faults) (clock : Time) (rt : String)
  | purge (f : Faults) (clock : Time)

/-- The store after the operation. -/
def Op.run (ta : TokenAuth) (s : Store) : Op → Store
  | Op.login f clock env req ua =>
    (loginWithoutTokenApp ⟨ta, AuthStore f clock⟩ env req ua s).store
  | Op.refresh f clock env rt => (pwdless.refresh ⟨ta, AuthStore f clock⟩ env rt s).store
  | Op.logout f clock rt => (pwdless.logout ⟨ta, AuthStore f clock⟩ rt s).store
  | Op.purge f clock => (choresTick ⟨ta, AuthStore f clock⟩ s).store

/-- The token string the operation generates, if it is one that generates any. -/
def Op.generated : Op → Option String
  | Op.login _ _ env _ _ => some env.uuid
  | Op.refresh _ _ env _ => some env.uuid
  | Op.logout _ _ _ => none
  | Op.purge _ _ => none

/-- The store after a sequence of operations, run one after the other. -/
def runOps (ta : TokenAuth) (s : Store) (ops : List Op) : Store :=
  ops.foldl (Op.run ta) s

end pwdless

namespace Sample

open jwt pwdless database

/-- A token authority that signs by tagging the claims. -/
def ta : TokenAuth :=
  { JwtRefreshExpiry := 3600
    GenTokenPair := fun a r =>
      Except.ok ("access." ++ toString a.ID.toNat, "refresh." ++ r.Token) }

/-- The bootstrap administrator. -/
def root : Account :=
  { ID := 1, Login := "root", Pwd := "agroup", Email := "admin@agroup07.ru",
    Name := "Admin Boot", Active := true, Roles := ["admin"], LastLogin := 0 }

/-- A deactivated account. -/
def guest : Account :=
  { ID := 2, Login := "guest", Pwd := "pw", Email := "guest@agroup07.ru",
    Name := "Guest", Active := false, Roles := [], LastLogin := 0 }

/-- A live record of `root`. -/
def tokA : Token :=
  { ID := 1, UpdatedAt := 10, AccountID := 1, Token := "tok-a", Expiry := 5000,
    Mobile := false, Identifier := "Firefox on Linux" }

/-- A record of `root` whose expiry is long past. -/
def tokOld : Token :=
  { ID := 2, UpdatedAt := 1, AccountID := 1, Token := "tok-old", Expiry := 50,
    Mobile := true, Identifier := "Safari on iOS" }

/-- A live record of the deactivated account. -/
def tokG : Token :=
  { ID := 3, UpdatedAt := 10, AccountID := 2, Token := "tok-g", Expiry := 5000,
    Mobile := false, Identifier := "Chrome on Windows" }

/-- A store with two accounts and three records. -/
def store0 : Store := { accounts := [root, guest], tokens := [tokA, tokOld, tokG], seq := 3 }

/-- A run at time 1000 that generates the token string `tok-b`. -/
def env0 : Env := { now := fun _ => 1000, uuid := "tok-b" }

/-- A later run that generates the token string `tok-c`. -/
def env1 : Env := { now := fun _ => 1100, uuid := "tok-c" }

/-- A desktop browser. -/
def ua0 : UserAgent := { Mobile := false, Browser := "Firefox", OS := "Linux" }

/-- The pattern in which only `UpdateAccount` fails. -/
def failUpdateAccount : Faults := { noFaults with UpdateAccount := some "connection reset" }

/-- The pattern in which only `GetToken` fails. -/
def failGetToken : Faults := { noFaults with GetToken := some "connection reset" }

/-- The pattern in which only `DeleteToken` fails. -/
def failDeleteToken : Faults := { noFaults with DeleteToken := some "connection reset" }

/-- The resource over the backend under a failure pattern. -/
def rs (f : Faults) : Resource Store := { TokenAuth := ta, Store := AuthStore f 1000 }

end Sample

namespace database

open jwt pwdless

/-! ## Lookups read, failed calls change nothing -/

theorem GetToken_store (f : Faults) (t : String) (s : Store) : (GetToken f t s).2 = s := by
  unfold GetToken
  split
  · rfl
  · split <;> rfl

theorem GetAccount_store (f : Faults) (id : Int) (s : Store) : (GetAccount f id s).2 = s := by
  unfold GetAccount
  split
  · rfl
  · split <;> rfl

theorem GetAccountByLogin_store (f : Faults) (l p : String) (s : Store) :
    (GetAccountByLogin f l p s).2 = s := by
  unfold GetAccountByLogin
  split
  · rfl
  · split <;> rfl

theorem GetToken_eq (f : Faults) (t : String) (s : Store) (r : Except Error Token)
    (h : (GetToken f t s).1 = r) : GetToken f t s = (r, s) :=
  Prod.ext h (GetToken_store f t s)

theorem GetAccount_eq (f : Faults) (id : Int) (s : Store) (r : Except Error Account)
    (h : (GetAccount f id s).1 = r) : GetAccount f id s = (r, s) :=
  Prod.ext h (GetAccount_store f id s)

end database

open jwt pwdless database Sample

/-! ## Claims decided by the handlers alone -/

/-- C9. In login and in refresh, whenever the call log holds a `CreateOrUpdateToken`,
`GenTokenPair` or `UpdateAccount` call that returned an error, whatever the error
value and whatever the store implementation, the response is the fixed value
`ErrInternalServerError` and therefore no credential pair. -/
theorem internal_failures_collapsed {σ : Type} (rs : Resource σ) (env : Env)
    (req : loginRequest) (ua : UserAgent) (rt : String) (s : σ) (c : Call) (e : Error)
    (hc : c.commits = true) :
    (⟨c, some e⟩ ∈ (loginWithoutTokenApp rs env req ua s).calls →
      (loginWithoutTokenApp rs env req ua s).resp = ErrInternalServerError ∧
      ∀ p, (loginWithoutTokenApp rs env req ua s).resp ≠ Response.tokens p) ∧
    (⟨c, some e⟩ ∈ (refresh rs env rt s).calls →
      (refresh rs env rt s).resp = ErrInternalServerError ∧
      ∀ p, (refresh rs env rt s).resp ≠ Response.tokens p) := by
  constructor
  · simp only [loginWithoutTokenApp]
    repeat' split
    all_goals
      intro hmem
      simp only [List.mem_cons, List.mem_singleton, List.not_mem_nil, Event.mk.injEq,
        or_false] at hmem
      simp only [ErrInternalServerError, ErrUnauthorized, true_and]
      casesm* _ ∨ _, _ ∧ _ <;> subst_vars <;> simp_all [Call.commits]
  · simp only [refresh]
    repeat' split
    all_goals
      intro hmem
      simp only [List.mem_cons, List.mem_singleton, List.not_mem_nil, Event.mk.injEq,
        or_false] at hmem
      simp only [ErrInternalServerError, ErrUnauthorized, true_and]
      casesm* _ ∨ _, _ ∧ _ <;> subst_vars <;> simp_all [Call.commits]

/-- Witness for C9: with a backend whose `UpdateAccount` fails, login of `root` and
refresh of a live record both log the failed call and answer
`ErrInternalServerError`. -/
theorem internal_failures_collapsed_witness :
    (⟨Call.UpdateAccount { root with LastLogin := 1000 }, some "connection reset"⟩ : Event) ∈
        (loginWithoutTokenApp (rs failUpdateAccount) env0 ⟨"root", "agroup"⟩ ua0 store0).calls ∧
      (loginWithoutTokenApp (rs failUpdateAccount) env0 ⟨"root", "agroup"⟩ ua0 store0).resp =
        ErrInternalServerError ∧
      (refresh (rs failUpdateAccount) env0 "tok-a" store0).resp = ErrInternalServerError :=
  ⟨by decide,
   ((internal_failures_collapsed (rs failUpdateAccount) env0 ⟨"root", "agroup"⟩ ua0 "tok-a"
      store0 (Call.UpdateAccount { root with LastLogin := 1000 }) "connection reset" rfl).1
      (by decide)).1,
   ((internal_failures_collapsed (rs failUpdateAccount) env0 ⟨"root", "agroup"⟩ ua0 "tok-a"
      store0 (Call.UpdateAccount { root with LastLogin := 1000 }) "connection reset" rfl).2
      (by decide)).1⟩

/-- C3 (the code departs from the claim). `Bind` does report the validation error for
an empty or non-alphanumeric login, but the login handler drops that result: for every
request, store implementation and store state the first thing the handler does is call
`GetAccountByLogin` with the trimmed login, so no request is answered before storage
is touched. At `login = ""` against the sample store the handler calls
`GetAccountByLogin("", "x")` and answers Unauthorized("unknown login"). -/
theorem login_validation_result_dropped :
    (∀ {σ : Type} (rs : Resource σ) (env : Env) (req : loginRequest) (ua : UserAgent) (s : σ),
      ((loginWithoutTokenApp rs env req ua s).calls.head?).map Event.call =
        some (Call.GetAccountByLogin (TrimSpace req.Login) req.Pwd)) ∧
    (loginRequest.Bind ⟨"", "x"⟩).2 = some "cannot be blank" ∧
    (loginWithoutTokenApp (rs noFaults) env0 ⟨"", "x"⟩ ua0 store0).calls =
      [⟨Call.GetAccountByLogin "" "x", some ErrNoRows⟩] ∧
    (loginWithoutTokenApp (rs noFaults) env0 ⟨"", "x"⟩ ua0 store0).resp =
      ErrUnauthorized ErrUnknownLogin := by
  refine ⟨?_, by decide, by decide, by decide⟩
  intro σ rs env req ua s
  have hb : ∀ r : loginRequest, (r.Bind).1 = { r with Login := TrimSpace r.Login } := by
    intro r
    simp only [loginRequest.Bind]
    split <;> rfl
  simp only [loginWithoutTokenApp, hb]
  repeat' split
  all_goals rfl

/-- C5. For every account with `CanLogin()` false, every store implementation and
store state: (i) a login whose lookup resolves to that account and (ii) a refresh whose
record lookup succeeds, whose record is not expired and whose owner lookup resolves to
that account (the lookups leaving the store as it is) both answer
Unauthorized("login disabled"), which is no credential pair; the store is left as it
was, and the only calls made are the lookups (no `CreateOrUpdateToken`, `DeleteToken`
or `UpdateAccount`). -/
theorem disabled_accounts_refused {σ : Type} (rs : Resource σ) (env : Env) (s : σ)
    (acc : Account) (hdis : acc.CanLogin = false) :
    (∀ (req : loginRequest) (ua : UserAgent),
      rs.Store.GetAccountByLogin (req.Bind).1.Login (req.Bind).1.Pwd s = (Except.ok acc, s) →
        (loginWithoutTokenApp rs env req ua s).resp = ErrUnauthorized ErrLoginDisabled ∧
          (loginWithoutTokenApp rs env req ua s).store = s ∧
          (loginWithoutTokenApp rs env req ua s).calls =
            [⟨Call.GetAccountByLogin (req.Bind).1.Login (req.Bind).1.Pwd, none⟩]) ∧
    (∀ (rt : String) (tok : Token),
      rs.Store.GetToken rt s = (Except.ok tok, s) → ¬ tok.Expiry < env.now 0 →
      rs.Store.GetAccount tok.AccountID s = (Except.ok acc, s) →
        (refresh rs env rt s).resp = ErrUnauthorized ErrLoginDisabled ∧
          (refresh rs env rt s).store = s ∧
          (refresh rs env rt s).calls =
            [⟨Call.GetToken rt, none⟩, ⟨Call.GetAccount tok.AccountID, none⟩]) := by
  constructor
  · intro req ua h1
    simp [loginWithoutTokenApp, h1, hdis]
  · intro rt tok h1 hexp h2
    simp [refresh, h1, h2, hdis, hexp]

/-- Witness for C5: the deactivated sample account is refused at login and at refresh
of its live record. -/
theorem disabled_accounts_refused_witness :
    guest.CanLogin = false ∧
      (loginWithoutTokenApp (rs noFaults) env0 ⟨"guest", "pw"⟩ ua0 store0).resp =
        ErrUnauthorized ErrLoginDisabled ∧
      (refresh (rs noFaults) env0 "tok-g" store0).store = store0 :=
  ⟨by decide,
   ((disabled_accounts_refused (rs noFaults) env0 store0 guest (by decide)).1
      ⟨"guest", "pw"⟩ ua0 rfl).1,
   ((disabled_accounts_refused (rs noFaults) env0 store0 guest (by decide)).2
      "tok-g" tokG rfl (by decide) rfl).2.1⟩

namespace database

open jwt pwdless

/-! ## The backend: what a lookup returns, what a write keeps -/

/-- Under the table constraints a token string identifies its record. -/
theorem WF.token_inj {s : Store} (hwf : WF s) {x y : Token} (hx : x ∈ s.tokens)
    (hy : y ∈ s.tokens) (h : x.Token = y.Token) : x = y := by
  by_contra hne
  have hsym : Symmetric (fun x y : Token => x.ID ≠ y.ID ∧ x.Token ≠ y.Token) :=
    fun a b hab => ⟨fun e => hab.1 e.symm, fun e => hab.2 e.symm⟩
  exact (hwf.1.forall hsym hx hy hne).2 h

/-- Under the table constraints an id identifies its record. -/
theorem WF.id_inj {s : Store} (hwf : WF s) {x y : Token} (hx : x ∈ s.tokens)
    (hy : y ∈ s.tokens) (h : x.ID = y.ID) : x = y := by
  by_contra hne
  have hsym : Symmetric (fun x y : Token => x.ID ≠ y.ID ∧ x.Token ≠ y.Token) :=
    fun a b hab => ⟨fun e => hab.1 e.symm, fun e => hab.2 e.symm⟩
  exact (hwf.1.forall hsym hx hy hne).1 h

/-- A successful `GetToken` returns a stored record with the requested token string. -/
theorem GetToken_ok {f : Faults} {t : String} {s : Store} {r : Token}
    (h : (GetToken f t s).1 = Except.ok r) : r ∈ s.tokens ∧ r.Token = t := by
  unfold GetToken at h
  split at h
  · cases h
  · split at h
    · rename_i r0 hfind
      cases h
      exact ⟨List.mem_of_find?_eq_some hfind, by simpa using List.find?_some hfind⟩
    · cases h

/-- Without a record of that token string `GetToken` returns an error. -/
theorem GetToken_absent (f : Faults) {t : String} {s : Store} (h : ¬ HasToken s t) :
    ∃ e, GetToken f t s = (Except.error e, s) := by
  cases hr : (GetToken f t s).1 with
  | error e => exact ⟨e, GetToken_eq f t s _ hr⟩
  | ok r => exact absurd ⟨r, (GetToken_ok hr).1, (GetToken_ok hr).2⟩ h

/-- With a record of that token string and no failure of the call, `GetToken` returns
the record. -/
theorem GetToken_present {f : Faults} {t : String} {s : Store} (hwf : WF s)
    (hf : f.GetToken = none) {r : Token} (hr : r ∈ s.tokens) (ht : r.Token = t) :
    GetToken f t s = (Except.ok r, s) := by
  unfold GetToken
  rw [hf]
  cases hfind : s.tokens.find? (fun r => decide (r.Token = t)) with
  | none =>
    have := List.find?_eq_none.mp hfind r hr
    simp [ht] at this
  | some r0 =>
    have h0 : r0.Token = t := by simpa using List.find?_some hfind
    have : r0 = r := hwf.token_inj (List.mem_of_find?_eq_some hfind) hr (h0.trans ht.symm)
    simp [this]

theorem DeleteToken_tokens (f : Faults) (x : Token) (s : Store) :
    (DeleteToken f x s).2.tokens = s.tokens ∨
      (f.DeleteToken = none ∧
        (DeleteToken f x s).2.tokens = s.tokens.filter (fun r => decide (r.ID ≠ x.ID))) := by
  unfold DeleteToken
  split
  · exact Or.inl rfl
  · rename_i h
    exact Or.inr ⟨h, rfl⟩

/-- A `DeleteToken` call that does not fail removes the row of the record's id. -/
theorem DeleteToken_run {f : Faults} (hf : f.DeleteToken = none) (x : Token) (s : Store) :
    DeleteToken f x s =
      (none, { s with tokens := s.tokens.filter (fun r => decide (r.ID ≠ x.ID)) }) := by
  unfold DeleteToken
  rw [hf]

theorem DeleteToken_accounts (f : Faults) (x : Token) (s : Store) :
    (DeleteToken f x s).2.accounts = s.accounts ∧ (DeleteToken f x s).2.seq = s.seq := by
  unfold DeleteToken
  split <;> exact ⟨rfl, rfl⟩

theorem UpdateAccount_tokens (f : Faults) (a : Account) (s : Store) :
    (UpdateAccount f a s).2.tokens = s.tokens ∧ (UpdateAccount f a s).2.seq = s.seq := by
  unfold UpdateAccount
  split <;> exact ⟨rfl, rfl⟩

/-- The table constraints only concern the `tokens` table and the serial. -/
theorem WF_congr {s s' : Store} (ht : s'.tokens = s.tokens) (hs : s'.seq = s.seq)
    (h : WF s) : WF s' := by
  unfold WF at *
  rw [ht, hs]
  exact h

theorem WF_filter {s s' : Store} (p : Token → Bool) (ht : s'.tokens = s.tokens.filter p)
    (hs : s'.seq = s.seq) (h : WF s) : WF s' := by
  unfold WF at *
  rw [ht, hs]
  exact ⟨h.1.filter p, h.2.1, fun r hr => h.2.2 r (List.mem_of_mem_filter hr)⟩

theorem WF_UpdateAccount (f : Faults) (a : Account) {s : Store} (h : WF s) :
    WF (UpdateAccount f a s).2 :=
  WF_congr (UpdateAccount_tokens f a s).1 (UpdateAccount_tokens f a s).2 h

theorem WF_DeleteToken (f : Faults) (x : Token) {s : Store} (h : WF s) :
    WF (DeleteToken f x s).2 := by
  rcases DeleteToken_tokens f x s with ht | ⟨_, ht⟩
  · exact WF_congr ht (DeleteToken_accounts f x s).2 h
  · exact WF_filter _ ht (DeleteToken_accounts f x s).2 h

theorem WF_PurgeExpiredToken (f : Faults) (clock : Time) {s : Store} (h : WF s) :
    WF (PurgeExpiredToken f clock s).2 := by
  unfold PurgeExpiredToken
  split
  · exact h
  · exact WF_filter _ rfl rfl h

/-- What `CreateOrUpdateToken` does to the tables: nothing when it returns an error;
otherwise it appends the record under the next serial id (record never stored) or
overwrites the row of the record's id. -/
theorem CreateOrUpdateToken_cases (f : Faults) (x : Token) (s : Store) :
    (∃ e, CreateOrUpdateToken f x s = (Except.error e, s)) ∨
    (x.ID = 0 ∧ (∀ r ∈ s.tokens, r.Token ≠ x.Token) ∧
      CreateOrUpdateToken f x s =
        (Except.ok { x with ID := s.seq + 1 },
          { s with tokens := s.tokens ++ [{ x with ID := s.seq + 1 }], seq := s.seq + 1 })) ∨
    (x.ID ≠ 0 ∧ (∀ r ∈ s.tokens, r.ID ≠ x.ID → r.Token ≠ x.Token) ∧
      CreateOrUpdateToken f x s =
        (Except.ok x,
          { s with tokens := s.tokens.map (fun r => if r.ID = x.ID then x else r) })) := by
  unfold CreateOrUpdateToken
  split
  · exact Or.inl ⟨_, rfl⟩
  · split
    · rename_i h0
      split
      · exact Or.inl ⟨_, rfl⟩
      · rename_i hany
        refine Or.inr (Or.inl ⟨h0, ?_, rfl⟩)
        intro r hr heq
        exact hany (List.any_eq_true.mpr ⟨r, hr, by simpa using heq⟩)
    · rename_i h0
      split
      · exact Or.inl ⟨_, rfl⟩
      · rename_i hany
        refine Or.inr (Or.inr ⟨h0, ?_, rfl⟩)
        intro r hr hid heq
        exact hany (List.any_eq_true.mpr ⟨r, hr, by simp [hid, heq]⟩)

theorem WF_CreateOrUpdateToken (f : Faults) (x : Token) {s : Store} (h : WF s) :
    WF (CreateOrUpdateToken f x s).2 := by
  rcases CreateOrUpdateToken_cases f x s with ⟨e, he⟩ | ⟨_, hfresh, he⟩ | ⟨hid, hfresh, he⟩
  · rw [he]; exact h
  · rw [he]
    have h0 := h.2.1
    refine ⟨?_, ?_, ?_⟩
    · simp only [List.pairwise_append, List.pairwise_singleton, List.mem_singleton,
        forall_eq, true_and]
      refine ⟨h.1, fun a ha => ⟨?_, hfresh a ha⟩⟩
      have := (h.2.2 a ha).2
      show a.ID ≠ s.seq + 1
      omega
    · show 0 ≤ s.seq + 1
      omega
    · intro r hr
      simp only [List.mem_append, List.mem_singleton] at hr
      rcases hr with hr | rfl
      · have := h.2.2 r hr
        show 0 < r.ID ∧ r.ID ≤ s.seq + 1
        omega
      · show 0 < s.seq + 1 ∧ s.seq + 1 ≤ s.seq + 1
        omega
  · rw [he]
    refine ⟨?_, h.2.1, ?_⟩
    · show List.Pairwise _ (s.tokens.map _)
      rw [List.pairwise_map]
      refine List.Pairwise.imp_of_mem ?_ h.1
      intro a b ha hb hab
      by_cases h1 : a.ID = x.ID <;> by_cases h2 : b.ID = x.ID
      · exact absurd (h1.trans h2.symm) hab.1
      · simp only [h1, h2, if_true, if_false]
        exact ⟨fun e => h2 e.symm, fun e => hfresh b hb h2 e.symm⟩
      · simp only [h1, h2, if_true, if_false]
        exact ⟨h1, hfresh a ha h1⟩
      · simp only [h1, h2, if_false]
        exact hab
    · intro r hr
      have hr1 : r ∈ s.tokens.map (fun r => if r.ID = x.ID then x else r) := hr
      rcases List.mem_map.mp hr1 with ⟨a, ha, rfl⟩
      by_cases h1 : a.ID = x.ID
      · simp only [h1, if_true]
        rw [← h1]
        exact h.2.2 a ha
      · simp only [h1, if_false]
        exact h.2.2 a ha

/-- Under the table constraints, deleting the record that holds token string `t`
removes exactly the records with that token string. -/
theorem DeleteToken_filter {f : Faults} {s : Store} (hwf : WF s) (hf : f.DeleteToken = none)
    {r : Token} {t : String} (hr : r ∈ s.tokens) (ht : r.Token = t) :
    (DeleteToken f r s).2.tokens = s.tokens.filter (fun x => decide (x.Token ≠ t)) := by
  rw [DeleteToken_run hf]
  apply List.filter_congr
  intro x hx
  by_cases hxr : x = r
  · simp [hxr, ht]
  · have h1 : x.ID ≠ r.ID := fun e => hxr (hwf.id_inj hx hr e)
    have h2 : x.Token ≠ t := fun e => hxr (hwf.token_inj hx hr (e.trans ht.symm))
    simp [h1, h2]

/-- Under the table constraints, after deleting the record that holds token string
`t` no record holds it. -/
theorem DeleteToken_revokes {f : Faults} {s : Store} (hwf : WF s) (hf : f.DeleteToken = none)
    {r : Token} {t : String} (hr : r ∈ s.tokens) (ht : r.Token = t) :
    ¬ HasToken (DeleteToken f r s).2 t := by
  rintro ⟨y, hy, hyt⟩
  rw [DeleteToken_filter hwf hf hr ht] at hy
  have := (List.mem_filter.mp hy).2
  simp [hyt] at this

end database

namespace pwdless

open jwt database

/-! ## Runs of the handlers against the backend -/

/-- A property of the tables that every write of the backend keeps is kept by
`refresh`; the record it writes carries the generated token string, and the
record it deletes is the expired one the lookup returned. -/
theorem refresh_preserves (P : Store → Prop) (ta : TokenAuth) (f : Faults) (clock : Time)
    (env : Env) (t : String) (s : Store)
    (hD : ∀ x, (GetToken f t s).1 = Except.ok x → x.Expiry < env.now 0 → P s →
      P (DeleteToken f x s).2)
    (hC : ∀ x s, x.Token = env.uuid → P s → P (CreateOrUpdateToken f x s).2)
    (hU : ∀ a s, P s → P (UpdateAccount f a s).2) (h : P s) :
    P (refresh ⟨ta, AuthStore f clock⟩ env t s).store := by
  have e1 := GetToken_store f t s
  simp only [refresh, AuthStore]
  rcases h1 : GetToken f t s with ⟨_ | r, s1⟩ <;> rw [h1] at e1 hD <;> simp only at e1 <;>
    subst e1 <;> simp only
  · exact h
  · split
    · rename_i hexp
      exact hD r rfl hexp h
    · have e2 := GetAccount_store f r.AccountID s1
      rcases h2 : GetAccount f r.AccountID s1 with ⟨_ | acc, s2⟩ <;> rw [h2] at e2 <;>
        simp only at e2 <;> subst e2 <;> simp only
      · exact h
      · split
        · exact h
        · split
          · exact h
          · have hc := hC (rotated ta env r) s2 rfl h
            rcases h3 : CreateOrUpdateToken f (rotated ta env r) s2 with ⟨_ | x, s3⟩ <;>
              rw [h3] at hc <;> simp only at hc ⊢
            · exact hc
            · have hu := hU { acc with LastLogin := env.now 3 } s3 hc
              rcases h4 : UpdateAccount f { acc with LastLogin := env.now 3 } s3 with
                ⟨_ | e, s4⟩ <;> rw [h4] at hu <;> simp only at hu ⊢ <;> exact hu

/-- A property of the tables that every write of the backend keeps is kept by
`loginWithoutTokenApp`; the record it writes carries the generated token string. -/
theorem login_preserves (P : Store → Prop) (ta : TokenAuth) (f : Faults) (clock : Time)
    (env : Env) (req : loginRequest) (ua : UserAgent) (s : Store)
    (hC : ∀ x s, x.Token = env.uuid → P s → P (CreateOrUpdateToken f x s).2)
    (hU : ∀ a s, P s → P (UpdateAccount f a s).2) (h : P s) :
    P (loginWithoutTokenApp ⟨ta, AuthStore f clock⟩ env req ua s).store := by
  have e1 := GetAccountByLogin_store f (req.Bind).1.Login (req.Bind).1.Pwd s
  simp only [loginWithoutTokenApp, AuthStore]
  rcases h1 : GetAccountByLogin f (req.Bind).1.Login (req.Bind).1.Pwd s with ⟨_ | acc, s1⟩ <;>
    rw [h1] at e1 <;> simp only at e1 <;> subst e1 <;> simp only
  · exact h
  · split
    · exact h
    · have hc := hC (issued ta env ua acc) s1 rfl h
      rcases h3 : CreateOrUpdateToken f (issued ta env ua acc) s1 with ⟨_ | x, s3⟩ <;>
        rw [h3] at hc <;> simp only at hc ⊢
      · exact hc
      · split
        · exact hc
        · have hu := hU { acc with LastLogin := env.now 2 } s3 hc
          rcases h4 : UpdateAccount f { acc with LastLogin := env.now 2 } s3 with
            ⟨_ | e, s4⟩ <;> rw [h4] at hu <;> simp only at hu ⊢ <;> exact hu

/-- A property of the tables that `DeleteToken` keeps is kept by `logout`. -/
theorem logout_preserves (P : Store → Prop) (ta : TokenAuth) (f : Faults) (clock : Time)
    (t : String) (s : Store) (hD : ∀ x s, P s → P (DeleteToken f x s).2) (h : P s) :
    P (logout ⟨ta, AuthStore f clock⟩ t s).store := by
  have e1 := GetToken_store f t s
  simp only [logout, AuthStore]
  rcases h1 : GetToken f t s with ⟨_ | r, s1⟩ <;> rw [h1] at e1 <;> simp only at e1 <;>
    subst e1 <;> simp only
  · exact h
  · exact hD r _ h

end pwdless

namespace pwdless

open jwt database

/-- Without a record of the presented token string, `refresh` answers
Unauthorized("token expired") after the one lookup and leaves the store as it was. -/
theorem refresh_absent (ta : TokenAuth) (f : Faults) (clock : Time) (env : Env) {t : String}
    {s : Store} (h : ¬ HasToken s t) :
    ∃ e, refresh ⟨ta, AuthStore f clock⟩ env t s =
      ⟨ErrUnauthorized ErrTokenExpired, s, [⟨Call.GetToken t, some e⟩]⟩ := by
  obtain ⟨e, he⟩ := GetToken_absent f h
  exact ⟨e, by simp only [refresh, AuthStore, he]⟩

/-- When `refresh` answers with a credential pair, every step of the rotation went
through: the lookups succeeded, the record was not expired, the account may log in,
the pair was minted for the rotated record, and both writes succeeded. -/
theorem refresh_success {ta : TokenAuth} {f : Faults} {clock : Time} {env : Env} {t : String}
    {s : Store} {p : tokenResponse}
    (h : (refresh ⟨ta, AuthStore f clock⟩ env t s).resp = Response.tokens p) :
    ∃ r acc x, GetToken f t s = (Except.ok r, s) ∧ ¬ r.Expiry < env.now 0 ∧
      GetAccount f r.AccountID s = (Except.ok acc, s) ∧ acc.CanLogin = true ∧
      ta.GenTokenPair acc.Claims (rotated ta env r).Claims = Except.ok (p.Access, p.Refresh) ∧
      (CreateOrUpdateToken f (rotated ta env r) s).1 = Except.ok x ∧
      f.UpdateAccount = none ∧
      refresh ⟨ta, AuthStore f clock⟩ env t s =
        ⟨Response.tokens p,
          (UpdateAccount f { acc with LastLogin := env.now 3 }
            (CreateOrUpdateToken f (rotated ta env r) s).2).2,
          [⟨Call.GetToken t, none⟩, ⟨Call.GetAccount r.AccountID, none⟩,
           ⟨Call.GenTokenPair acc.Claims (rotated ta env r).Claims, none⟩,
           ⟨Call.CreateOrUpdateToken (rotated ta env r), none⟩,
           ⟨Call.UpdateAccount { acc with LastLogin := env.now 3 }, none⟩]⟩ := by
  have e1 := GetToken_store f t s
  rcases h1 : GetToken f t s with ⟨_ | r, s1⟩ <;> rw [h1] at e1 <;> simp only at e1 <;>
    subst e1
  · simp [refresh, AuthStore, h1, ErrUnauthorized] at h
  · by_cases hexp : r.Expiry < env.now 0
    · simp [refresh, AuthStore, h1, hexp, ErrUnauthorized] at h
    · have e2 := GetAccount_store f r.AccountID s1
      rcases h2 : GetAccount f r.AccountID s1 with ⟨_ | acc, s2⟩ <;> rw [h2] at e2 <;>
        simp only at e2 <;> subst e2
      · simp [refresh, AuthStore, h1, hexp, h2, ErrUnauthorized] at h
      · cases hcan : acc.CanLogin
        · simp [refresh, AuthStore, h1, hexp, h2, hcan, ErrUnauthorized] at h
        · rcases h3 : ta.GenTokenPair acc.Claims (rotated ta env r).Claims with _ | ⟨a, b⟩
          · simp [refresh, AuthStore, h1, hexp, h2, hcan, h3, ErrInternalServerError] at h
          · rcases h4 : CreateOrUpdateToken f (rotated ta env r) s2 with ⟨_ | x, s3⟩
            · simp [refresh, AuthStore, h1, hexp, h2, hcan, h3, h4,
                ErrInternalServerError] at h
            · rcases h5 : UpdateAccount f { acc with LastLogin := env.now 3 } s3 with
                ⟨_ | e, s4⟩
              · have hp : p = ⟨a, b⟩ := by
                  simp [refresh, AuthStore, h1, hexp, h2, hcan, h3, h4, h5] at h
                  exact h.symm
                subst hp
                have hf : f.UpdateAccount = none := by
                  unfold UpdateAccount at h5
                  split at h5
                  · simp at h5
                  · assumption
                refine ⟨r, acc, x, rfl, hexp, h2, hcan, h3, by rw [h4], hf, ?_⟩
                simp [refresh, AuthStore, h1, hexp, h2, hcan, h3, h4, h5]
              · simp [refresh, AuthStore, h1, hexp, h2, hcan, h3, h4, h5,
                  ErrInternalServerError] at h

/-- A successful `CreateOrUpdateToken` of a record whose id is that of a stored record
overwrites that row and nothing else. -/
theorem rotation_tokens {f : Faults} {s : Store} (hwf : WF s) {r x y : Token}
    (hr : r ∈ s.tokens) (hid : x.ID = r.ID)
    (hok : (CreateOrUpdateToken f x s).1 = Except.ok y) :
    (CreateOrUpdateToken f x s).2 =
      { s with tokens := s.tokens.map (fun z => if z = r then x else z) } := by
  have hpos := (hwf.2.2 r hr).1
  rcases CreateOrUpdateToken_cases f x s with ⟨e, he⟩ | ⟨h0, _, _⟩ | ⟨_, _, he⟩
  · rw [he] at hok; cases hok
  · omega
  · rw [he]
    simp only [Store.mk.injEq, true_and, and_true]
    apply List.map_congr_left
    intro z hz
    by_cases hzr : z = r
    · simp [hzr, hid]
    · have : z.ID ≠ x.ID := fun e => hzr (hwf.id_inj hz hr (e.trans hid))
      simp [hzr, this]

end pwdless

open jwt pwdless database Sample

/-! ## Claims about single runs against the backend -/

/-- C6, counterexample. The sample store holds a record with token string `tok-old`
whose expiry has passed. With a backend whose `DeleteToken` fails, refresh answers
Unauthorized("token expired") and the record is still stored: the handler discards the
error of `DeleteToken`. The same holds with a backend whose `GetToken` fails. -/
theorem refresh_expired_record_survives :
    tokOld ∈ store0.tokens ∧ tokOld.Token = "tok-old" ∧ tokOld.Expiry < env0.now 0 ∧
    (refresh (rs failDeleteToken) env0 "tok-old" store0).resp =
      ErrUnauthorized ErrTokenExpired ∧
    HasToken (refresh (rs failDeleteToken) env0 "tok-old" store0).store "tok-old" ∧
    (refresh (rs failGetToken) env0 "tok-old" store0).resp =
      ErrUnauthorized ErrTokenExpired ∧
    HasToken (refresh (rs failGetToken) env0 "tok-old" store0).store "tok-old" :=
  ⟨by decide, rfl, by decide, by decide, ⟨tokOld, by decide, rfl⟩, by decide,
   ⟨tokOld, by decide, rfl⟩⟩

/-- C6, amended. Lazy expiry in refresh. In a store that satisfies the table
constraints and holds a record `r` with token string `t`, under every failure pattern:
if the record's expiry has passed (`r.Expiry < now`), refresh answers
Unauthorized("token expired"), which is no pair; when neither the `GetToken` nor the
`DeleteToken` call returns an error, no record with token string `t` is left; when
either of them returns an error, the store is left as it was. If the expiry has not
passed, the run makes no `DeleteToken` call and a record with `r`'s id is still stored
afterwards. -/
theorem refresh_lazy_expiry (ta : TokenAuth) (f : Faults) (clock : Time) (env : Env)
    (s : Store) (t : String) (r : Token) (hwf : WF s) (hr : r ∈ s.tokens) (ht : r.Token = t) :
    (r.Expiry < env.now 0 →
      (refresh ⟨ta, AuthStore f clock⟩ env t s).resp = ErrUnauthorized ErrTokenExpired ∧
      (f.GetToken = none → f.DeleteToken = none →
        ¬ HasToken (refresh ⟨ta, AuthStore f clock⟩ env t s).store t) ∧
      (f.GetToken ≠ none ∨ f.DeleteToken ≠ none →
        (refresh ⟨ta, AuthStore f clock⟩ env t s).store = s)) ∧
    (¬ r.Expiry < env.now 0 →
      (∀ ev ∈ (refresh ⟨ta, AuthStore f clock⟩ env t s).calls,
        ∀ x, ev.call ≠ Call.DeleteToken x) ∧
      ∃ r1 ∈ (refresh ⟨ta, AuthStore f clock⟩ env t s).store.tokens, r1.ID = r.ID) := by
  cases hget : f.GetToken with
  | some e =>
    have h1 : GetToken f t s = (Except.error e, s) := by simp [GetToken, hget]
    have hout : refresh ⟨ta, AuthStore f clock⟩ env t s =
        ⟨ErrUnauthorized ErrTokenExpired, s, [⟨Call.GetToken t, some e⟩]⟩ := by
      simp only [refresh, AuthStore, h1]
    rw [hout]
    refine ⟨fun _ => ⟨rfl, fun h => Option.noConfusion h, fun _ => rfl⟩,
      fun _ => ⟨?_, r, hr, rfl⟩⟩
    intro ev hev x
    simp only [List.mem_singleton] at hev
    subst hev
    simp
  | none =>
    have h1 := GetToken_present hwf hget hr ht
    constructor
    · intro hexp
      refine ⟨by simp [refresh, AuthStore, h1, hexp], ?_, ?_⟩
      · intro _ hdel
        simp only [refresh, AuthStore, h1, hexp, if_true]
        exact DeleteToken_revokes hwf hdel hr ht
      · intro hor
        simp only [refresh, AuthStore, h1, hexp, if_true]
        rcases hor with h | h
        · exact absurd rfl h
        · cases hd : f.DeleteToken with
          | none => exact absurd hd h
          | some e => simp [DeleteToken, hd]
    · intro hexp
      constructor
      · simp only [refresh, AuthStore, h1, hexp, if_false]
        repeat' split
        all_goals simp
      · refine refresh_preserves (fun s1 => ∃ r1 ∈ s1.tokens, r1.ID = r.ID) ta f clock env t s
          ?_ ?_ ?_ ⟨r, hr, rfl⟩
        · intro x hx hxe
          rw [h1] at hx
          cases hx
          exact absurd hxe hexp
        · rintro x s1 _ ⟨r1, hr1, hid⟩
          rcases CreateOrUpdateToken_cases f x s1 with ⟨e, he⟩ | ⟨_, _, he⟩ | ⟨_, _, he⟩
          · rw [he]; exact ⟨r1, hr1, hid⟩
          · rw [he]; exact ⟨r1, List.mem_append_left _ hr1, hid⟩
          · rw [he]
            refine ⟨if r1.ID = x.ID then x else r1, List.mem_map.mpr ⟨r1, hr1, rfl⟩, ?_⟩
            by_cases hx : r1.ID = x.ID
            · simp only [hx, if_true]; exact hx.symm.trans hid
            · simp only [hx, if_false]; exact hid
        · rintro a s1 ⟨r1, hr1, hid⟩
          exact ⟨r1, by rw [(UpdateAccount_tokens f a s1).1]; exact hr1, hid⟩

/-- Witness for C6 amended: the expired sample record is refused and, the calls not
failing, removed; with a failing `DeleteToken` the store stays as it was. -/
theorem refresh_lazy_expiry_witness :
    WF store0 ∧ tokOld ∈ store0.tokens ∧ tokOld.Expiry < env0.now 0 ∧
      (refresh ⟨ta, AuthStore noFaults 1000⟩ env0 "tok-old" store0).resp =
        ErrUnauthorized ErrTokenExpired ∧
      ¬ HasToken (refresh ⟨ta, AuthStore noFaults 1000⟩ env0 "tok-old" store0).store
        "tok-old" ∧
      (refresh ⟨ta, AuthStore failDeleteToken 1000⟩ env0 "tok-old" store0).store = store0 :=
  ⟨by unfold WF; decide, by decide, by decide,
   ((refresh_lazy_expiry ta noFaults 1000 env0 store0 "tok-old" tokOld (by unfold WF; decide)
      (by decide) rfl).1 (by decide)).1,
   ((refresh_lazy_expiry ta noFaults 1000 env0 store0 "tok-old" tokOld (by unfold WF; decide)
      (by decide) rfl).1 (by decide)).2.1 rfl rfl,
   ((refresh_lazy_expiry ta failDeleteToken 1000 env0 store0 "tok-old" tokOld
      (by unfold WF; decide) (by decide) rfl).1 (by decide)).2.2 (Or.inr (by decide))⟩

/-- C7, counterexample. With a backend whose `DeleteToken` fails, logout of the live
sample record answers success, the record with token string `tok-a` is still stored
(the handler discards the error of `DeleteToken`), and a refresh presented with `tok-a`
afterwards returns a credential pair. -/
theorem logout_delete_error_discarded :
    HasToken store0 "tok-a" ∧
    (logout (rs failDeleteToken) "tok-a" store0).resp = Response.noBody ∧
    (logout (rs failDeleteToken) "tok-a" store0).calls =
      [⟨Call.GetToken "tok-a", none⟩, ⟨Call.DeleteToken tokA, some "connection reset"⟩] ∧
    HasToken (logout (rs failDeleteToken) "tok-a" store0).store "tok-a" ∧
    (refresh (rs noFaults) env0 "tok-a" (logout (rs failDeleteToken) "tok-a" store0).store).resp =
      Response.tokens ⟨"access.1", "refresh.tok-b"⟩ :=
  ⟨⟨tokA, by decide, rfl⟩, by decide, by decide, ⟨tokA, by decide, rfl⟩, by decide⟩

/-- C7, amended. Logout revokes. In a store that satisfies the table constraints, under
every failure pattern. When a record with token string `t` exists: if `GetToken`
returns an error, logout answers Unauthorized("token expired") and changes nothing;
otherwise logout answers success (the rendering of `http.NoBody`) and every account
record is unchanged; if moreover `DeleteToken` returns no error, no record with token
string `t` is left, every other record is unchanged, and any later refresh presented
with `t` in that store answers Unauthorized("token expired"); if `DeleteToken` returns
an error, the store is left as it was. When no record with token string `t` exists,
logout answers Unauthorized("token expired") and changes nothing. -/
theorem logout_revokes (ta : TokenAuth) (f : Faults) (clock : Time) (s : Store) (t : String)
    (hwf : WF s) :
    (HasToken s t →
      (f.GetToken ≠ none →
        (logout ⟨ta, AuthStore f clock⟩ t s).resp = ErrUnauthorized ErrTokenExpired ∧
        (logout ⟨ta, AuthStore f clock⟩ t s).store = s) ∧
      (f.GetToken = none →
        (logout ⟨ta, AuthStore f clock⟩ t s).resp = Response.noBody ∧
        (logout ⟨ta, AuthStore f clock⟩ t s).store.accounts = s.accounts ∧
        (f.DeleteToken = none →
          ¬ HasToken (logout ⟨ta, AuthStore f clock⟩ t s).store t ∧
          (logout ⟨ta, AuthStore f clock⟩ t s).store.tokens =
            s.tokens.filter (fun x => decide (x.Token ≠ t)) ∧
          ∀ (ta1 : TokenAuth) (f1 : Faults) (clock1 : Time) (env1 : Env),
            (refresh ⟨ta1, AuthStore f1 clock1⟩ env1 t
              (logout ⟨ta, AuthStore f clock⟩ t s).store).resp =
                ErrUnauthorized ErrTokenExpired) ∧
        (f.DeleteToken ≠ none → (logout ⟨ta, AuthStore f clock⟩ t s).store = s))) ∧
    (¬ HasToken s t →
      (logout ⟨ta, AuthStore f clock⟩ t s).resp = ErrUnauthorized ErrTokenExpired ∧
      (logout ⟨ta, AuthStore f clock⟩ t s).store = s) := by
  constructor
  · rintro ⟨r, hr, ht⟩
    constructor
    · intro hget
      cases hg : f.GetToken with
      | none => exact absurd hg hget
      | some e =>
        have h1 : GetToken f t s = (Except.error e, s) := by simp [GetToken, hg]
        simp only [logout, AuthStore, h1, and_self]
    · intro hget
      have h1 := GetToken_present hwf hget hr ht
      have hout : logout ⟨ta, AuthStore f clock⟩ t s =
          ⟨Response.noBody, (DeleteToken f r s).2,
            [⟨Call.GetToken t, none⟩, ⟨Call.DeleteToken r, (DeleteToken f r s).1⟩]⟩ := by
        simp only [logout, AuthStore, h1]
      rw [hout]
      refine ⟨rfl, (DeleteToken_accounts f r s).1, ?_, ?_⟩
      · intro hdel
        have hgone := DeleteToken_revokes hwf hdel hr ht
        refine ⟨hgone, DeleteToken_filter hwf hdel hr ht, ?_⟩
        intro ta1 f1 clock1 env1
        obtain ⟨e, he⟩ := refresh_absent ta1 f1 clock1 env1 hgone
        rw [he]
      · intro hdel
        cases hd : f.DeleteToken with
        | none => exact absurd hd hdel
        | some e => simp [DeleteToken, hd]
  · intro habs
    obtain ⟨e, he⟩ := GetToken_absent f habs
    simp only [logout, AuthStore, he, and_self]

/-- Witness for C7 amended: logging out the live sample record with a working backend
removes it; with a failing `DeleteToken` the store stays as it was; an unknown token
string changes nothing. -/
theorem logout_revokes_witness :
    WF store0 ∧ HasToken store0 "tok-a" ∧
      (logout ⟨ta, AuthStore noFaults 1000⟩ "tok-a" store0).resp = Response.noBody ∧
      (logout ⟨ta, AuthStore noFaults 1000⟩ "tok-a" store0).store.tokens = [tokOld, tokG] ∧
      (logout ⟨ta, AuthStore failDeleteToken 1000⟩ "tok-a" store0).store = store0 ∧
      (logout ⟨ta, AuthStore noFaults 1000⟩ "tok-zz" store0).store = store0 :=
  ⟨by unfold WF; decide, ⟨tokA, by decide, rfl⟩,
   (((logout_revokes ta noFaults 1000 store0 "tok-a" (by unfold WF; decide)).1
      ⟨tokA, by decide, rfl⟩).2 rfl).1,
   by decide,
   ((((logout_revokes ta failDeleteToken 1000 store0 "tok-a" (by unfold WF; decide)).1
      ⟨tokA, by decide, rfl⟩).2 rfl).2.2.2 (by decide)),
   ((logout_revokes ta noFaults 1000 store0 "tok-zz" (by unfold WF; decide)).2
      (by unfold HasToken; decide)).2⟩

/-- C10. Rotation changes only the session secret and its lifetime. In a store that
satisfies the table constraints, whenever refresh answers with a credential pair: the
lookup returned a stored record `r` with the presented token string; the record handed
to `CreateOrUpdateToken` is `r` with the generated token string, expiry
`now + JwtRefreshExpiry` and last-update `now`, and with `r`'s id, owning account,
device-class flag and device identifier; the calls made are exactly the two lookups,
the minting, that one `CreateOrUpdateToken` and one `UpdateAccount` (no `DeleteToken`);
and the `tokens` table afterwards is the one before with `r` replaced by that record,
every other record untouched. -/
theorem refresh_rotation_frame (ta : TokenAuth) (f : Faults) (clock : Time) (env : Env)
    (s : Store) (t : String) (p : tokenResponse) (hwf : WF s)
    (h : (refresh ⟨ta, AuthStore f clock⟩ env t s).resp = Response.tokens p) :
    ∃ (r : Token) (acc : Account),
      (GetToken f t s).1 = Except.ok r ∧ r ∈ s.tokens ∧ r.Token = t ∧
      (refresh ⟨ta, AuthStore f clock⟩ env t s).calls =
        [⟨Call.GetToken t, none⟩, ⟨Call.GetAccount r.AccountID, none⟩,
         ⟨Call.GenTokenPair acc.Claims
            ⟨r.ID, env.uuid, env.now 1 + ta.JwtRefreshExpiry⟩, none⟩,
         ⟨Call.CreateOrUpdateToken
            { ID := r.ID, UpdatedAt := env.now 2, AccountID := r.AccountID,
              Token := env.uuid, Expiry := env.now 1 + ta.JwtRefreshExpiry,
              Mobile := r.Mobile, Identifier := r.Identifier }, none⟩,
         ⟨Call.UpdateAccount { acc with LastLogin := env.now 3 }, none⟩] ∧
      (refresh ⟨ta, AuthStore f clock⟩ env t s).store.tokens =
        s.tokens.map (fun z => if z = r then
            { ID := r.ID, UpdatedAt := env.now 2, AccountID := r.AccountID,
              Token := env.uuid, Expiry := env.now 1 + ta.JwtRefreshExpiry,
              Mobile := r.Mobile, Identifier := r.Identifier }
          else z) := by
  obtain ⟨r, acc, x, h1, _, _, _, _, h4, _, hout⟩ := refresh_success h
  have hr := GetToken_ok (congrArg Prod.fst h1)
  refine ⟨r, acc, congrArg Prod.fst h1, hr.1, hr.2, ?_, ?_⟩
  · rw [hout]
    rfl
  · rw [hout]
    show (UpdateAccount f _ (CreateOrUpdateToken f (rotated ta env r) s).2).2.tokens = _
    rw [(UpdateAccount_tokens f _ _).1,
      @rotation_tokens f s hwf r (rotated ta env r) x hr.1 rfl h4]

/-- Witness for C10: rotating the live sample record leaves the two other records as
they were. -/
theorem refresh_rotation_frame_witness :
    WF store0 ∧
      (refresh ⟨ta, AuthStore noFaults 1000⟩ env0 "tok-a" store0).resp =
        Response.tokens ⟨"access.1", "refresh.tok-b"⟩ ∧
      ∃ (r : Token) (acc : Account),
        (GetToken noFaults "tok-a" store0).1 = Except.ok r ∧ r ∈ store0.tokens ∧
        r.Token = "tok-a" ∧
        (refresh ⟨ta, AuthStore noFaults 1000⟩ env0 "tok-a" store0).calls =
          [⟨Call.GetToken "tok-a", none⟩, ⟨Call.GetAccount r.AccountID, none⟩,
           ⟨Call.GenTokenPair acc.Claims
              ⟨r.ID, env0.uuid, env0.now 1 + ta.JwtRefreshExpiry⟩, none⟩,
           ⟨Call.CreateOrUpdateToken
              { ID := r.ID, UpdatedAt := env0.now 2, AccountID := r.AccountID,
                Token := env0.uuid, Expiry := env0.now 1 + ta.JwtRefreshExpiry,
                Mobile := r.Mobile, Identifier := r.Identifier }, none⟩,
           ⟨Call.UpdateAccount { acc with LastLogin := env0.now 3 }, none⟩] ∧
        (refresh ⟨ta, AuthStore noFaults 1000⟩ env0 "tok-a" store0).store.tokens =
          store0.tokens.map (fun z => if z = r then
              { ID := r.ID, UpdatedAt := env0.now 2, AccountID := r.AccountID,
                Token := env0.uuid, Expiry := env0.now 1 + ta.JwtRefreshExpiry,
                Mobile := r.Mobile, Identifier := r.Identifier }
            else z) :=
  ⟨by unfold WF; decide, by decide,
   refresh_rotation_frame ta noFaults 1000 env0 store0 "tok-a" ⟨"access.1", "refresh.tok-b"⟩
     (by unfold WF; decide) (by decide)⟩

/-- C2, counterexample. With a backend whose `UpdateAccount` fails, refresh of the live
sample record persists the rotated record (the presented token string matches no record
any more) and yet answers `ErrInternalServerError` instead of a pair: neither of the two
outcomes of the claim. -/
theorem refresh_half_committed :
    (refresh (rs failUpdateAccount) env0 "tok-a" store0).resp = ErrInternalServerError ∧
    (refresh (rs failUpdateAccount) env0 "tok-a" store0).store.tokens =
      [{ tokA with Token := "tok-b", Expiry := 4600, UpdatedAt := 1000 }, tokOld, tokG] ∧
    ¬ HasToken (refresh (rs failUpdateAccount) env0 "tok-a" store0).store "tok-a" ∧
    ¬ ((∃ p, (refresh (rs failUpdateAccount) env0 "tok-a" store0).resp = Response.tokens p) ∨
       (refresh (rs failUpdateAccount) env0 "tok-a" store0).store.tokens = store0.tokens) := by
  refine ⟨by decide, by decide, by unfold HasToken; decide, ?_⟩
  rintro (⟨p, hp⟩ | h)
  · have h1 : (refresh (rs failUpdateAccount) env0 "tok-a" store0).resp =
        ErrInternalServerError := by decide
    rw [h1] at hp
    cases hp
  · revert h
    decide

/-- C2, amended. In a store that satisfies the table constraints, for every presented
token and failure pattern, a run of refresh ends in one of four ways: (a) the response
is a credential pair and the presented record is stored rotated; (b) the response is
not a pair and the `tokens` table is as before; (c) the presented record was expired,
the response is Unauthorized("token expired") and the record has been deleted; (d) `UpdateAccount` returned an error after `CreateOrUpdateToken`
succeeded: the response is `ErrInternalServerError`, the presented record is stored
rotated and the accounts are as before. -/
theorem refresh_outcomes (ta : TokenAuth) (f : Faults) (clock : Time) (env : Env)
    (s : Store) (t : String) (hwf : WF s) :
    (∃ p r, (refresh ⟨ta, AuthStore f clock⟩ env t s).resp = Response.tokens p ∧
      r ∈ s.tokens ∧ r.Token = t ∧
      (refresh ⟨ta, AuthStore f clock⟩ env t s).store.tokens =
        s.tokens.map (fun z => if z = r then rotated ta env r else z)) ∨
    ((∀ p, (refresh ⟨ta, AuthStore f clock⟩ env t s).resp ≠ Response.tokens p) ∧
      (refresh ⟨ta, AuthStore f clock⟩ env t s).store.tokens = s.tokens) ∨
    ((refresh ⟨ta, AuthStore f clock⟩ env t s).resp = ErrUnauthorized ErrTokenExpired ∧
      ∃ r ∈ s.tokens, r.Token = t ∧ r.Expiry < env.now 0 ∧
        (refresh ⟨ta, AuthStore f clock⟩ env t s).store.tokens =
          s.tokens.filter (fun z => decide (z.ID ≠ r.ID))) ∨
    ((refresh ⟨ta, AuthStore f clock⟩ env t s).resp = ErrInternalServerError ∧
      f.UpdateAccount ≠ none ∧
      (refresh ⟨ta, AuthStore f clock⟩ env t s).store.accounts = s.accounts ∧
      ∃ r ∈ s.tokens, r.Token = t ∧
        (refresh ⟨ta, AuthStore f clock⟩ env t s).store.tokens =
          s.tokens.map (fun z => if z = r then rotated ta env r else z)) := by
  have e1 := GetToken_store f t s
  rcases h1 : GetToken f t s with ⟨_ | r, s1⟩ <;> rw [h1] at e1 <;> simp only at e1 <;>
    subst e1
  · exact Or.inr (Or.inl (by simp [refresh, AuthStore, h1, ErrUnauthorized]))
  have hr := GetToken_ok (congrArg Prod.fst h1)
  by_cases hexp : r.Expiry < env.now 0
  · rcases DeleteToken_tokens f r s1 with hd | ⟨_, hd⟩
    · exact Or.inr (Or.inl (by simp [refresh, AuthStore, h1, hexp, ErrUnauthorized, hd]))
    · exact Or.inr (Or.inr (Or.inl ⟨by simp [refresh, AuthStore, h1, hexp],
        r, hr.1, hr.2, hexp, by simp only [refresh, AuthStore, h1, hexp, if_true, hd]⟩))
  have e2 := GetAccount_store f r.AccountID s1
  rcases h2 : GetAccount f r.AccountID s1 with ⟨_ | acc, s2⟩ <;> rw [h2] at e2 <;>
    simp only at e2 <;> subst e2
  · exact Or.inr (Or.inl (by simp [refresh, AuthStore, h1, hexp, h2, ErrUnauthorized]))
  cases hcan : acc.CanLogin
  · exact Or.inr (Or.inl (by simp [refresh, AuthStore, h1, hexp, h2, hcan, ErrUnauthorized]))
  rcases h3 : ta.GenTokenPair acc.Claims (rotated ta env r).Claims with _ | ⟨a, b⟩
  · exact Or.inr (Or.inl
      (by simp [refresh, AuthStore, h1, hexp, h2, hcan, h3, ErrInternalServerError]))
  rcases h4 : CreateOrUpdateToken f (rotated ta env r) s2 with ⟨e | x, s3⟩
  · have hs3 : s3 = s2 := by
      rcases CreateOrUpdateToken_cases f (rotated ta env r) s2 with
        ⟨e1, he⟩ | ⟨_, _, he⟩ | ⟨_, _, he⟩ <;> rw [he] at h4 <;> cases h4
      rfl
    subst hs3
    exact Or.inr (Or.inl
      (by simp [refresh, AuthStore, h1, hexp, h2, hcan, h3, h4, ErrInternalServerError]))
  have hs3 : s3 =
      { s2 with tokens := List.map (fun z => if z = r then rotated ta env r else z) s2.tokens } := by
    have := @rotation_tokens f s2 hwf r (rotated ta env r) x hr.1 rfl (by rw [h4])
    rw [h4] at this
    exact this
  rcases h5 : UpdateAccount f { acc with LastLogin := env.now 3 } s3 with ⟨_ | e, s4⟩
  · have hs4 := (UpdateAccount_tokens f { acc with LastLogin := env.now 3 } s3).1
    rw [h5] at hs4
    simp only at hs4
    refine Or.inl ⟨⟨a, b⟩, r, ?_, hr.1, hr.2, ?_⟩
    · simp [refresh, AuthStore, h1, hexp, h2, hcan, h3, h4, h5]
    · simp only [refresh, AuthStore, h1, hexp, h2, hcan, h3, h4, h5]
      simp [hs4, hs3]
  · have hf : f.UpdateAccount ≠ none := by
      intro hnone
      simp [UpdateAccount, hnone] at h5
    have hs4 : s4 = s3 := by
      unfold UpdateAccount at h5
      split at h5
      · cases h5; rfl
      · cases h5
    subst hs4
    refine Or.inr (Or.inr (Or.inr ⟨?_, hf, ?_, r, hr.1, hr.2, ?_⟩))
    · simp [refresh, AuthStore, h1, hexp, h2, hcan, h3, h4, h5, ErrInternalServerError]
    · simp only [refresh, AuthStore, h1, hexp, h2, hcan, h3, h4, h5]
      simp [hs3]
    · simp only [refresh, AuthStore, h1, hexp, h2, hcan, h3, h4, h5]
      simp [hs3]

/-- Witness for C2 amended: the run of the counterexample ends in one of the four ways
(the fourth). -/
theorem refresh_outcomes_witness :
    WF store0 ∧
    ((∃ p r, (refresh ⟨ta, AuthStore failUpdateAccount 1000⟩ env0 "tok-a" store0).resp =
        Response.tokens p ∧ r ∈ store0.tokens ∧ r.Token = "tok-a" ∧
      (refresh ⟨ta, AuthStore failUpdateAccount 1000⟩ env0 "tok-a" store0).store.tokens =
        store0.tokens.map (fun z => if z = r then rotated ta env0 r else z)) ∨
    ((∀ p, (refresh ⟨ta, AuthStore failUpdateAccount 1000⟩ env0 "tok-a" store0).resp ≠
        Response.tokens p) ∧
      (refresh ⟨ta, AuthStore failUpdateAccount 1000⟩ env0 "tok-a" store0).store.tokens =
        store0.tokens) ∨
    ((refresh ⟨ta, AuthStore failUpdateAccount 1000⟩ env0 "tok-a" store0).resp =
        ErrUnauthorized ErrTokenExpired ∧
      ∃ r ∈ store0.tokens, r.Token = "tok-a" ∧ r.Expiry < env0.now 0 ∧
        (refresh ⟨ta, AuthStore failUpdateAccount 1000⟩ env0 "tok-a" store0).store.tokens =
          store0.tokens.filter (fun z => decide (z.ID ≠ r.ID))) ∨
    ((refresh ⟨ta, AuthStore failUpdateAccount 1000⟩ env0 "tok-a" store0).resp =
        ErrInternalServerError ∧
      failUpdateAccount.UpdateAccount ≠ none ∧
      (refresh ⟨ta, AuthStore failUpdateAccount 1000⟩ env0 "tok-a" store0).store.accounts =
        store0.accounts ∧
      ∃ r ∈ store0.tokens, r.Token = "tok-a" ∧
        (refresh ⟨ta, AuthStore failUpdateAccount 1000⟩ env0 "tok-a" store0).store.tokens =
          store0.tokens.map (fun z => if z = r then rotated ta env0 r else z))) :=
  ⟨by unfold WF; decide,
   refresh_outcomes ta failUpdateAccount 1000 env0 store0 "tok-a" (by unfold WF; decide)⟩

namespace database

open jwt pwdless

/-! ## Writes that do not bring back a token string -/

theorem absent_DeleteToken (f : Faults) (x : Token) {s : Store} {t : String}
    (h : ¬ HasToken s t) : ¬ HasToken (DeleteToken f x s).2 t := by
  rintro ⟨y, hy, hyt⟩
  rcases DeleteToken_tokens f x s with hd | ⟨_, hd⟩ <;> rw [hd] at hy
  · exact h ⟨y, hy, hyt⟩
  · exact h ⟨y, List.mem_of_mem_filter hy, hyt⟩

theorem absent_PurgeExpiredToken (f : Faults) (clock : Time) {s : Store} {t : String}
    (h : ¬ HasToken s t) : ¬ HasToken (PurgeExpiredToken f clock s).2 t := by
  rintro ⟨y, hy, hyt⟩
  unfold PurgeExpiredToken at hy
  split at hy
  · exact h ⟨y, hy, hyt⟩
  · exact h ⟨y, List.mem_of_mem_filter hy, hyt⟩

theorem absent_UpdateAccount (f : Faults) (a : Account) {s : Store} {t : String}
    (h : ¬ HasToken s t) : ¬ HasToken (UpdateAccount f a s).2 t := by
  rintro ⟨y, hy, hyt⟩
  rw [(UpdateAccount_tokens f a s).1] at hy
  exact h ⟨y, hy, hyt⟩

theorem absent_CreateOrUpdateToken (f : Faults) {x : Token} {s : Store} {t : String}
    (hx : x.Token ≠ t) (h : ¬ HasToken s t) : ¬ HasToken (CreateOrUpdateToken f x s).2 t := by
  rintro ⟨y, hy, hyt⟩
  rcases CreateOrUpdateToken_cases f x s with ⟨e, he⟩ | ⟨_, _, he⟩ | ⟨_, _, he⟩ <;>
    rw [he] at hy
  · exact h ⟨y, hy, hyt⟩
  · simp only [List.mem_append, List.mem_singleton] at hy
    rcases hy with hy | rfl
    · exact h ⟨y, hy, hyt⟩
    · exact hx hyt
  · rcases List.mem_map.mp hy with ⟨z, hz, rfl⟩
    by_cases hzx : z.ID = x.ID
    · simp only [hzx, if_true] at hyt
      exact hx hyt
    · simp only [hzx, if_false] at hyt
      exact h ⟨z, hz, hyt⟩

end database

namespace pwdless

open jwt database

/-- Any operation keeps the table constraints. -/
theorem Op.run_WF (ta : TokenAuth) {s : Store} (h : WF s) (op : Op) : WF (op.run ta s) := by
  cases op with
  | login f clock env req ua =>
    exact login_preserves WF ta f clock env req ua s
      (fun x s _ hs => WF_CreateOrUpdateToken f x hs) (fun a s hs => WF_UpdateAccount f a hs) h
  | refresh f clock env rt =>
    exact refresh_preserves WF ta f clock env rt s (fun x _ _ hs => WF_DeleteToken f x hs)
      (fun x s _ hs => WF_CreateOrUpdateToken f x hs) (fun a s hs => WF_UpdateAccount f a hs) h
  | logout f clock rt =>
    exact logout_preserves WF ta f clock rt s (fun x s hs => WF_DeleteToken f x hs) h
  | purge f clock =>
    exact WF_PurgeExpiredToken f clock h

/-- An operation that does not generate the token string `t` does not bring it back
into the store. -/
theorem Op.run_absent (ta : TokenAuth) {s : Store} {t : String} (h : ¬ HasToken s t)
    (op : Op) (hop : op.generated ≠ some t) : ¬ HasToken (op.run ta s) t := by
  cases op with
  | login f clock env req ua =>
    have hne : env.uuid ≠ t := fun e => hop (congrArg some e)
    exact login_preserves (fun s => ¬ HasToken s t) ta f clock env req ua s
      (fun x s hx hs => absent_CreateOrUpdateToken f (by rw [hx]; exact hne) hs)
      (fun a s hs => absent_UpdateAccount f a hs) h
  | refresh f clock env rt =>
    have hne : env.uuid ≠ t := fun e => hop (congrArg some e)
    exact refresh_preserves (fun s => ¬ HasToken s t) ta f clock env rt s
      (fun x _ _ hs => absent_DeleteToken f x hs)
      (fun x s hx hs => absent_CreateOrUpdateToken f (by rw [hx]; exact hne) hs)
      (fun a s hs => absent_UpdateAccount f a hs) h
  | logout f clock rt =>
    exact logout_preserves (fun s => ¬ HasToken s t) ta f clock rt s
      (fun x s hs => absent_DeleteToken f x hs) h
  | purge f clock =>
    exact absent_PurgeExpiredToken f clock h

/-- A sequence of operations none of which generates `t` keeps the table constraints
and does not bring `t` back. -/
theorem runOps_absent (ta : TokenAuth) {t : String} (ops : List Op)
    (hops : ∀ op ∈ ops, op.generated ≠ some t) {s : Store} (hwf : WF s)
    (h : ¬ HasToken s t) : WF (runOps ta s ops) ∧ ¬ HasToken (runOps ta s ops) t := by
  induction ops generalizing s with
  | nil => exact ⟨hwf, h⟩
  | cons op ops ih =>
    have hop := hops op (List.mem_cons_self _ _)
    exact ih (fun o ho => hops o (List.mem_cons_of_mem _ ho)) (Op.run_WF ta hwf op)
      (Op.run_absent ta h op hop)

/-- After a refresh that answered with a pair and generated a token string other than
the presented one, the table constraints hold and no record holds the presented
token string. -/
theorem refresh_rotates_away {ta : TokenAuth} {f : Faults} {clock : Time} {env : Env}
    {t : String} {s : Store} {p : tokenResponse} (hwf : WF s)
    (h : (refresh ⟨ta, AuthStore f clock⟩ env t s).resp = Response.tokens p)
    (hnew : env.uuid ≠ t) :
    WF (refresh ⟨ta, AuthStore f clock⟩ env t s).store ∧
      ¬ HasToken (refresh ⟨ta, AuthStore f clock⟩ env t s).store t := by
  refine ⟨Op.run_WF ta hwf (Op.refresh f clock env t), ?_⟩
  obtain ⟨r, acc, x, h1, _, _, _, _, h4, _, hout⟩ := refresh_success h
  have hr := GetToken_ok (congrArg Prod.fst h1)
  rw [hout]
  apply absent_UpdateAccount
  rw [@rotation_tokens f s hwf r (rotated ta env r) x hr.1 rfl h4]
  rintro ⟨y, hy, hyt⟩
  rcases List.mem_map.mp hy with ⟨z, hz, rfl⟩
  by_cases hzr : z = r
  · simp only [hzr, if_true] at hyt
    exact hnew hyt
  · simp only [hzr, if_false] at hyt
    exact hzr (hwf.token_inj hz hr.1 (hyt.trans hr.2.symm))

end pwdless

/-- C1. Single-use refresh. In a store that satisfies the table constraints, if a
refresh presented with `t` answers with a credential pair, then, provided the token
string it generated and every token string generated by the later operations differs
from `t`, a refresh presented with `t` in the store right after it or after any
sequence of login, refresh, logout and purge operations, under any failure pattern,
answers Unauthorized("token expired"). -/
theorem refresh_single_use (ta : TokenAuth) (f : Faults) (clock : Time) (env : Env)
    (s : Store) (t : String) (p : tokenResponse) (hwf : WF s)
    (hsucc : (refresh ⟨ta, AuthStore f clock⟩ env t s).resp = Response.tokens p)
    (hnew : env.uuid ≠ t)
    (ops : List Op) (hops : ∀ op ∈ ops, op.generated ≠ some t)
    (f1 : Faults) (clock1 : Time) (env1 : Env) :
    (refresh ⟨ta, AuthStore f1 clock1⟩ env1 t
      (runOps ta (refresh ⟨ta, AuthStore f clock⟩ env t s).store ops)).resp =
        ErrUnauthorized ErrTokenExpired := by
  obtain ⟨hwf1, habs1⟩ := refresh_rotates_away hwf hsucc hnew
  obtain ⟨_, habs2⟩ := runOps_absent ta ops hops hwf1 habs1
  obtain ⟨e, he⟩ := refresh_absent ta f1 clock1 env1 habs2
  rw [he]

/-- Witness for C1: after the live sample record is rotated, a login, a purge and a
refresh of the new token string later, the old token string is still refused. -/
theorem refresh_single_use_witness :
    WF store0 ∧
      (refresh ⟨ta, AuthStore noFaults 1000⟩ env0 "tok-a" store0).resp =
        Response.tokens ⟨"access.1", "refresh.tok-b"⟩ ∧
      (refresh ⟨ta, AuthStore noFaults 1200⟩ env1 "tok-a"
        (runOps ta (refresh ⟨ta, AuthStore noFaults 1000⟩ env0 "tok-a" store0).store
          [Op.login noFaults 1100 env1 ⟨"root", "agroup"⟩ ua0, Op.purge noFaults 1100,
           Op.refresh noFaults 1100 ⟨fun _ => 1100, "tok-d"⟩ "tok-b"])).resp =
        ErrUnauthorized ErrTokenExpired :=
  ⟨by unfold WF; decide, by decide,
   refresh_single_use ta noFaults 1000 env0 store0 "tok-a" ⟨"access.1", "refresh.tok-b"⟩
     (by unfold WF; decide) (by decide) (by decide)
     [Op.login noFaults 1100 env1 ⟨"root", "agroup"⟩ ua0, Op.purge noFaults 1100,
      Op.refresh noFaults 1100 ⟨fun _ => 1100, "tok-d"⟩ "tok-b"]
     (by decide) noFaults 1200 env1⟩
